import Mathlib

/-
Verification of the access-control and slug-uniqueness core of
`lib/galaxy/managers/sharable.py` (class `SharableModelManager`).

Shallow embedding conventions:
  * A database of sharable rows is a `List Resource`; the ORM session with
    autoflush is modelled by computing every query against the current list
    and applying every attribute assignment immediately (the `flush` flags of
    the source only delay the commit, never the values any later query sees
    inside the same session).
  * `item.user` is modelled by the owner's numeric id; the requesting
    identity is `Option User` with `none` for the anonymous identity.
  * The user-share association table (`user_share_model`) is a list of
    `ShareGrant` rows; `item.users_shared_with_dot_users` is derived from it.
  * Python exceptions become `Except` error values; raising before any
    attribute assignment is modelled by returning the error with the
    database unchanged.
  * Machine-level details (ids, flags) are `Nat`/`Bool`; strings are Lean
    `String` over the same ASCII alphabet the slug logic manipulates.
-/

/-- A row of the sharable table: `item` with its `user` (owner id), `name`,
optional `title` (subclasses may lack the attribute, hence `Option`),
nullable `slug`, and the `importable`/`published` flags. -/
structure Resource where
  id : Nat
  owner : Nat
  name : String
  title : Option String
  slug : Option String
  importable : Bool
  published : Bool
deriving DecidableEq

/-- A row of the `user_share_model` association table. -/
structure ShareGrant where
  itemId : Nat
  userId : Nat
deriving DecidableEq

/-- A registered user as seen by the identity provider. -/
structure User where
  id : Nat
  admin : Bool
deriving DecidableEq

/-- The sharable table of the session. -/
abbrev DB := List Resource

/-- Session state: the sharable table together with the share-association
table. -/
structure State where
  db : DB
  grants : List ShareGrant
deriving DecidableEq

/-- Modelled from the spec: the identity provider (`galaxy.managers.users`,
outside the selected sources) answers `is_admin(identity)`; the anonymous
identity (`None`) is not an admin. -/
def is_admin : Option User → Bool
  | none => false
  | some u => u.admin

/-- Modelled from the spec: the identity provider answers
`is_anonymous(identity)`; the anonymous identity is `none`. -/
def is_anonymous (user : Option User) : Bool :=
  user.isNone

/-- `is_owner`: admin, or `item.user == user` (comparison of the owner row
with `None` is `False`). -/
def is_owner (item : Resource) (user : Option User) : Bool :=
  if is_admin user then true
  else
    match user with
    | none => false
    | some u => item.owner == u.id

/-- `item.users_shared_with_dot_users`: the users holding a share
association with `item`. -/
def users_shared_with (grants : List ShareGrant) (item : Resource) : List Nat :=
  (grants.filter (fun g => g.itemId == item.id)).map (fun g => g.userId)

/-- `is_accessible`: importable, else owner, else `False` for anonymous,
else membership in the users-shared-with list. -/
def is_accessible (grants : List ShareGrant) (item : Resource) (user : Option User) : Bool :=
  if item.importable then true
  else if is_owner item user then true
  else if is_anonymous user then false
  else if user.any (fun u => (users_shared_with grants item).contains u.id) then true
  else false

/-- Python `\s` on the ASCII range (the slug logic only ever meets ASCII
text; Unicode-only whitespace is out of the modelled alphabet). -/
def pyIsSpace (c : Char) : Bool :=
  c == ' ' || c == '\t' || c == '\n' || c == '\r' || c == '\x0b' || c == '\x0c'

/-- `re.sub("\s+", "-", s)` on the character list: each maximal run of
whitespace becomes one hyphen; the boolean records being inside a run. -/
def subWsAux : Bool → List Char → List Char
  | _, [] => []
  | inRun, c :: cs =>
    if pyIsSpace c then
      if inRun then subWsAux true cs else '-' :: subWsAux true cs
    else c :: subWsAux false cs

/-- The character class `[a-zA-Z0-9-]` kept by the second substitution of
`_slugify`. -/
def keepChar (c : Char) : Bool :=
  c.isAlpha || c.isDigit || c == '-'

/-- `_slugify`: collapse whitespace runs to `-`, drop characters outside
`[a-zA-Z0-9-]`, then strip one trailing `-` (`str.endswith` on the empty
string is false, which `getLast?` reproduces). -/
def _slugify (s : String) : String :=
  let l1 := subWsAux false s.data
  let l2 := l1.filter keepChar
  let l3 := if l2.getLast? == some '-' then l2.dropLast else l2
  l3.asString

/-- Python `str.lower()`: lower-case character by character (the model's
alphabet is ASCII, where `lower` is exactly per-character
`Char.toLower`). -/
def pyLower (s : String) : String :=
  (s.data.map Char.toLower).asString

/-- `_default_slug_base`: `item.title.lower()` when the subclass has a
`title` attribute, else `item.name.lower()`. -/
def _default_slug_base (item : Resource) : String :=
  match item.title with
  | some t => pyLower t
  | none => pyLower item.name

/-- `is_valid_slug`: truthiness of `re.match("^[a-z0-9\-]+$", slug)`.
Python regex semantics: `$` (without `re.MULTILINE`) matches at the end of
the string or just before one newline at the end of the string, so a valid
slug followed by a single trailing `'\n'` also matches. -/
def is_valid_slug (slug : String) : Bool :=
  let core := if slug.data.getLast? == some '\n' then slug.data.dropLast else slug.data
  !core.isEmpty && core.all (fun c => c.isLower || c.isDigit || c == '-')

/-- Spec-side predicate, following the claim's words: the entire string
matches `^[a-z0-9-]+$` (full match: non-empty, every character in the
class). Kept separate from `is_valid_slug` for comparison. -/
def fullMatchSlugClass (s : String) : Bool :=
  !s.data.isEmpty && s.data.all (fun c => c.isLower || c.isDigit || c == '-')

/-- Spec-side description of what `is_valid_slug` accepts, stated
independently of the implementation: either every character of the
(non-empty) string is in `[a-z0-9-]`, or the string is such a block
followed by one trailing newline. -/
def validSlugSpec (s : String) : Prop :=
  (s.data ≠ [] ∧ ∀ c ∈ s.data, (c.isLower || c.isDigit || c == '-') = true) ∨
  (∃ t, s.data = t ++ ['\n'] ∧ t ≠ [] ∧ ∀ c ∈ t, (c.isLower || c.isDigit || c == '-') = true)

/-- `_slug_exists`: `query(model_class.slug).filter_by(user=user, slug=slug)
.count() != 0` — every row of the identity passed in, the `importable`
flag not consulted. -/
def _slug_exists (db : DB) (userId : Nat) (slug : String) : Bool :=
  db.any (fun r => r.owner == userId && r.slug == some slug)

/-- Write-back of one modified row into the table (rows are keyed by id). -/
def updateItem (db : DB) (r : Resource) : DB :=
  db.map (fun x => if x.id == r.id then r else x)

/-- The errors `set_slug` raises: `RequestParameterInvalidException`
(an invalid-input class) and `Conflict`. -/
inductive SetSlugError
  | invalidSlug
  | conflict
deriving DecidableEq

deriving instance DecidableEq for Except

/-- `set_slug`: validate, check `_slug_exists` for the passed identity,
then assign. Errors are raised before the assignment, so the table is
returned unchanged in both error cases. -/
def set_slug (db : DB) (itemId : Nat) (new_slug : String) (userId : Nat) :
    Except SetSlugError DB :=
  if !is_valid_slug new_slug then .error .invalidSlug
  else if _slug_exists db userId new_slug then .error .conflict
  else
    match db.find? (fun r => r.id == itemId) with
    | none => .ok db
    | some item => .ok (updateItem db { item with slug := some new_slug })

/-- One candidate of the `get_unique_slug` probe loop: the base itself,
then `'%s-%i' % (slug_base, count)` for `count = 1, 2, …`. -/
def slugCand (base : String) : Nat → String
  | 0 => base
  | k + 1 => base ++ "-" ++ Nat.repr (k + 1)

/-- The loop guard of `get_unique_slug`:
`query(item.__class__).filter_by(user=item.user, slug=new_slug,
importable=True).count() != 0` (rows of one model class). -/
def slugTaken (db : DB) (ownerId : Nat) (slug : String) : Bool :=
  db.any (fun r => r.owner == ownerId && r.slug == some slug && r.importable)

/-- The `while` loop of `get_unique_slug` with explicit fuel: from
candidate index `k` on, return the first candidate the guard rejects.
`probeSlug_total` shows fuel `db.length + 1` always suffices. -/
def probeSlug (db : DB) (ownerId : Nat) (base : String) : Nat → Nat → Option String
  | 0, _ => none
  | fuel + 1, k =>
    if slugTaken db ownerId (slugCand base k) then probeSlug db ownerId base fuel (k + 1)
    else some (slugCand base k)

/-- Base selection at the top of `get_unique_slug`: the current slug unless
it `is None or == ""`, else `_slugify(_default_slug_base(item))`. -/
def slug_base (item : Resource) : String :=
  match item.slug with
  | none => _slugify (_default_slug_base item)
  | some s => if s == "" then _slugify (_default_slug_base item) else s

/-- `get_unique_slug`: run the probe loop; fuel `db.length + 1` is enough
(`probeSlug_total`), the default is never consulted. -/
def get_unique_slug (db : DB) (item : Resource) : String :=
  (probeSlug db item.owner (slug_base item) (db.length + 1) 0).getD (slug_base item)

/-- `create_unique_slug` applied to the row: `item.slug =
self.get_unique_slug(item)` against the session state `db`. -/
def create_unique_slug_r (db : DB) (item : Resource) : Resource :=
  { item with slug := some (get_unique_slug db item) }

/-- `make_importable` applied to the row: assign the unique slug (query
against the pre-assignment state), then set `importable = True`. -/
def make_importable_r (db : DB) (item : Resource) : Resource :=
  { create_unique_slug_r db item with importable := true }

/-- `publish` applied to the row: cascade into `make_importable` when the
item is not importable, then set `published = True`. -/
def publish_r (db : DB) (item : Resource) : Resource :=
  let item1 := if item.importable then item else make_importable_r db item
  { item1 with published := true }

/-- `unpublish` applied to the row: only `published = False`. -/
def unpublish_r (item : Resource) : Resource :=
  { item with published := false }

/-- `make_non_importable` applied to the row: `unpublish` first when
published, then `importable = False`. -/
def make_non_importable_r (item : Resource) : Resource :=
  let item1 := if item.published then unpublish_r item else item
  { item1 with importable := false }

/-- Run a row transformation on the row with the given id and write the
result back; ids absent from the table leave it unchanged. -/
def applyOnItem (db : DB) (itemId : Nat) (f : DB → Resource → Resource) : DB :=
  match db.find? (fun r => r.id == itemId) with
  | none => db
  | some item => updateItem db (f db item)

/-- `make_importable` on the table. -/
def make_importable (db : DB) (itemId : Nat) : DB :=
  applyOnItem db itemId make_importable_r

/-- `publish` on the table. -/
def publish (db : DB) (itemId : Nat) : DB :=
  applyOnItem db itemId publish_r

/-- `unpublish` on the table. -/
def unpublish (db : DB) (itemId : Nat) : DB :=
  applyOnItem db itemId (fun _ r => unpublish_r r)

/-- `make_non_importable` on the table. -/
def make_non_importable (db : DB) (itemId : Nat) : DB :=
  applyOnItem db itemId (fun _ r => make_non_importable_r r)

/-- The four publish/importable state transitions. -/
inductive Op
  | publishOp
  | unpublishOp
  | makeImportableOp
  | makeNonImportableOp
deriving DecidableEq

/-- Apply one state transition to the row with the given id. -/
def applyOp (db : DB) (itemId : Nat) : Op → DB
  | .publishOp => publish db itemId
  | .unpublishOp => unpublish db itemId
  | .makeImportableOp => make_importable db itemId
  | .makeNonImportableOp => make_non_importable db itemId

/-- Apply a sequence of state transitions to the row with the given id. -/
def runOps (db : DB) (itemId : Nat) : List Op → DB
  | [] => db
  | op :: ops => runOps (applyOp db itemId op) itemId ops

/-- The dependent-flag invariant of the spec: `published ⇒ importable`. -/
def pubImpInv (r : Resource) : Prop :=
  r.published = true → r.importable = true

instance : DecidablePred pubImpInv :=
  fun r => decidable_of_iff (r.published = true → r.importable = true) Iff.rfl

/-- Python falsiness of the `slug` column (`not item.slug`): `None` or the
empty string. -/
def slugFalsy : Option String → Bool
  | none => true
  | some s => s == ""

/-- `get_share_assocs` for one user: the association rows linking the item
and the user, in table order. -/
def get_share_assocs (grants : List ShareGrant) (itemId userId : Nat) : List ShareGrant :=
  grants.filter (fun g => g.itemId == itemId && g.userId == userId)

/-- `share_with` for a single user: return an existing association, else
create one (`_create_user_share_assoc`), which also assigns a unique slug
when the item has none. -/
def share_with (st : State) (itemId userId : Nat) : ShareGrant × State :=
  match get_share_assocs st.grants itemId userId with
  | g :: _ => (g, st)
  | [] =>
    let g : ShareGrant := ⟨itemId, userId⟩
    let grants1 := st.grants ++ [g]
    match st.db.find? (fun r => r.id == itemId) with
    | none => (g, { st with grants := grants1 })
    | some item =>
      if slugFalsy item.slug then
        (g, { db := updateItem st.db (create_unique_slug_r st.db item), grants := grants1 })
      else (g, { st with grants := grants1 })

/-- The failure of `unshare_with` on a missing association: the source
indexes `[0]` into an empty query result, raising `IndexError`; the spec
files this failure under its NotFound class. -/
inductive UnshareError
  | notFound
deriving DecidableEq

/-- `unshare_with` for a single user: take the first association row the
query returns and delete that row; fail when there is none. -/
def unshare_with (st : State) (itemId userId : Nat) :
    Except UnshareError (ShareGrant × State) :=
  match get_share_assocs st.grants itemId userId with
  | [] => .error .notFound
  | g :: _ => .ok (g, { st with grants := st.grants.erase g })

/-- Numeric value of a decimal digit character produced by
`Nat.digitChar`. -/
def digitVal (c : Char) : Nat :=
  if c = '0' then 0 else if c = '1' then 1 else if c = '2' then 2
  else if c = '3' then 3 else if c = '4' then 4 else if c = '5' then 5
  else if c = '6' then 6 else if c = '7' then 7 else if c = '8' then 8
  else if c = '9' then 9 else 0

/-- Value of a most-significant-first decimal digit string. -/
def digitsVal : List Char → Nat
  | [] => 0
  | c :: cs => digitVal c * 10 ^ cs.length + digitsVal cs

theorem digitVal_digitChar (k : Nat) (h : k < 10) :
    digitVal (Nat.digitChar k) = k := by
  interval_cases k <;> rfl

theorem digitsVal_append_singleton (l : List Char) (c : Char) :
    digitsVal (l ++ [c]) = 10 * digitsVal l + digitVal c := by
  induction l with
  | nil => simp [digitsVal]
  | cons d l ih =>
      simp [digitsVal, ih, List.length_append]
      ring

theorem toDigitsCore_append (b fuel n : Nat) (ds : List Char) :
    Nat.toDigitsCore b fuel n ds = Nat.toDigitsCore b fuel n [] ++ ds := by
  induction fuel generalizing n ds with
  | zero => simp [Nat.toDigitsCore]
  | succ fuel ih =>
      simp only [Nat.toDigitsCore]
      by_cases h : n / b = 0
      · simp [h]
      · simp only [h, if_false]
        rw [ih (n / b) (Nat.digitChar (n % b) :: ds),
            ih (n / b) [Nat.digitChar (n % b)], List.append_assoc]
        rfl

theorem digitsVal_toDigitsCore (fuel n : Nat) (h : n < fuel) :
    digitsVal (Nat.toDigitsCore 10 fuel n []) = n := by
  induction fuel generalizing n with
  | zero => omega
  | succ fuel ih =>
      simp only [Nat.toDigitsCore]
      by_cases h0 : n / 10 = 0
      · simp only [h0, if_true]
        have hn : n < 10 := by omega
        simp [digitsVal, digitVal_digitChar (n % 10) (Nat.mod_lt _ (by norm_num))]
        omega
      · simp only [h0, if_false]
        rw [toDigitsCore_append, digitsVal_append_singleton]
        have hdiv : n / 10 < fuel := by
          have h1 : n / 10 < n := Nat.div_lt_self (by omega) (by norm_num)
          omega
        rw [ih (n / 10) hdiv,
            digitVal_digitChar (n % 10) (Nat.mod_lt _ (by norm_num))]
        omega

theorem digitsVal_toDigits (n : Nat) :
    digitsVal (Nat.toDigits 10 n) = n := by
  have := digitsVal_toDigitsCore (n + 1) n (Nat.lt_succ_self n)
  simpa [Nat.toDigits] using this

theorem Nat.repr_injective : Function.Injective Nat.repr := by
  intro m n h
  have hd : Nat.toDigits 10 m = Nat.toDigits 10 n := List.asString_inj.mp h
  have := digitsVal_toDigits m
  rw [hd, digitsVal_toDigits] at this
  omega

theorem string_eq_of_data_eq {s t : String} (h : s.data = t.data) : s = t := by
  cases s
  cases t
  exact congrArg String.mk h

theorem slugCand_succ_data (base : String) (k : Nat) :
    (slugCand base (k + 1)).data = base.data ++ '-' :: (Nat.repr (k + 1)).data := by
  have h : (slugCand base (k + 1)).data = (base.data ++ ['-']) ++ (Nat.repr (k + 1)).data := rfl
  rw [h, List.append_assoc]
  rfl

theorem slugCand_injective (base : String) : Function.Injective (slugCand base) := by
  intro a b h
  match a, b with
  | 0, 0 => rfl
  | 0, k + 1 =>
      exfalso
      have hd := congrArg String.data h
      rw [slugCand_succ_data] at hd
      have := congrArg List.length hd
      simp [List.length_append, slugCand] at this
  | k + 1, 0 =>
      exfalso
      have hd := congrArg String.data h
      rw [slugCand_succ_data] at hd
      have := congrArg List.length hd
      simp [List.length_append, slugCand] at this
  | k + 1, j + 1 =>
      have hd := congrArg String.data h
      rw [slugCand_succ_data, slugCand_succ_data] at hd
      have h2 := List.append_cancel_left hd
      have h3 : (Nat.repr (k + 1)).data = (Nat.repr (j + 1)).data := by
        simpa using h2
      have h4 : Nat.repr (k + 1) = Nat.repr (j + 1) := string_eq_of_data_eq h3
      have := Nat.repr_injective h4
      omega

theorem slugCand_ne_empty (base : String) (hb : base ≠ "") (k : Nat) :
    slugCand base k ≠ "" := by
  cases k with
  | zero => simpa [slugCand] using hb
  | succ k =>
      intro hc
      have hd := congrArg String.data hc
      rw [slugCand_succ_data] at hd
      have := congrArg List.length hd
      simp [List.length_append] at this

theorem probeSlug_none_taken (db : DB) (ownerId : Nat) (base : String) :
    ∀ fuel k, probeSlug db ownerId base fuel k = none →
      ∀ j < fuel, slugTaken db ownerId (slugCand base (k + j)) = true := by
  intro fuel
  induction fuel with
  | zero => intro k _ j hj; omega
  | succ fuel ih =>
      intro k h j hj
      rw [probeSlug] at h
      by_cases ht : slugTaken db ownerId (slugCand base k) = true
      · rw [if_pos ht] at h
        cases j with
        | zero => simpa using ht
        | succ j =>
            have := ih (k + 1) h j (by omega)
            have harith : k + 1 + j = k + (j + 1) := by omega
            rwa [harith] at this
      · rw [if_neg ht] at h
        exact absurd h (by simp)

theorem probeSlug_total (db : DB) (ownerId : Nat) (base : String) :
    probeSlug db ownerId base (db.length + 1) 0 ≠ none := by
  intro hnone
  have htaken := probeSlug_none_taken db ownerId base (db.length + 1) 0 hnone
  have hex : ∀ j : Fin (db.length + 1), ∃ r, r ∈ db ∧ r.owner = ownerId ∧
      r.slug = some (slugCand base j.val) ∧ r.importable = true := by
    intro j
    have := htaken j.val j.isLt
    simp only [Nat.zero_add] at this
    simp only [slugTaken, List.any_eq_true, Bool.and_eq_true, beq_iff_eq] at this
    obtain ⟨r, hr, ⟨⟨h1, h2⟩, h3⟩⟩ := this
    exact ⟨r, hr, h1, h2, h3⟩
  choose f hf using hex
  have hinj : Function.Injective f := by
    intro a b hab
    have ha := (hf a).2.2.1
    have hb := (hf b).2.2.1
    rw [hab] at ha
    rw [ha] at hb
    have := slugCand_injective base (Option.some.inj hb)
    exact Fin.ext this
  have hcard : (Finset.univ : Finset (Fin (db.length + 1))).card ≤ db.toFinset.card := by
    apply Finset.card_le_card_of_injOn f
    · intro j _
      exact List.mem_toFinset.mpr (hf j).1
    · intro a _ b _ hab
      exact hinj hab
  have h2 : db.toFinset.card ≤ db.length := db.toFinset_card_le
  simp only [Finset.card_univ, Fintype.card_fin] at hcard
  omega

theorem probeSlug_some_spec (db : DB) (ownerId : Nat) (base : String) :
    ∀ fuel k s, probeSlug db ownerId base fuel k = some s →
      ∃ j, s = slugCand base (k + j) ∧
        slugTaken db ownerId (slugCand base (k + j)) = false ∧
        ∀ i < j, slugTaken db ownerId (slugCand base (k + i)) = true := by
  intro fuel
  induction fuel with
  | zero => intro k s h; exact absurd h (by simp [probeSlug])
  | succ fuel ih =>
      intro k s h
      rw [probeSlug] at h
      by_cases ht : slugTaken db ownerId (slugCand base k) = true
      · rw [if_pos ht] at h
        obtain ⟨j, hj1, hj2, hj3⟩ := ih (k + 1) s h
        have harith : k + 1 + j = k + (j + 1) := by omega
        rw [harith] at hj1 hj2
        refine ⟨j + 1, hj1, hj2, ?_⟩
        intro i hi
        cases i with
        | zero => simpa using ht
        | succ i =>
            have := hj3 i (by omega)
            have harith2 : k + 1 + i = k + (i + 1) := by omega
            rwa [harith2] at this
      · rw [if_neg ht] at h
        refine ⟨0, ?_, ?_, ?_⟩
        · simpa using (Option.some.inj h).symm
        · simpa using eq_false_of_ne_true ht
        · intro i hi; omega

theorem get_unique_slug_spec (db : DB) (item : Resource) :
    ∃ k, get_unique_slug db item = slugCand (slug_base item) k ∧
      slugTaken db item.owner (slugCand (slug_base item) k) = false ∧
      ∀ j < k, slugTaken db item.owner (slugCand (slug_base item) j) = true := by
  obtain ⟨s, hs⟩ :=
    Option.ne_none_iff_exists'.mp (probeSlug_total db item.owner (slug_base item))
  obtain ⟨j, h1, h2, h3⟩ := probeSlug_some_spec db item.owner (slug_base item) _ 0 s hs
  simp only [Nat.zero_add] at h1 h2 h3
  refine ⟨j, ?_, h2, h3⟩
  rw [get_unique_slug, hs]
  simpa using h1

theorem mem_updateItem {db : DB} {x r : Resource} (h : r ∈ updateItem db x) :
    r ∈ db ∨ r = x := by
  simp only [updateItem, List.mem_map] at h
  obtain ⟨a, ha, hr⟩ := h
  by_cases hid : (a.id == x.id) = true
  · rw [if_pos hid] at hr
    exact Or.inr hr.symm
  · rw [if_neg hid] at hr
    exact Or.inl (hr ▸ ha)

theorem pubImpInv_make_importable_r (db : DB) (item : Resource) :
    pubImpInv (make_importable_r db item) := by
  intro _
  rfl

theorem publish_r_importable (db : DB) (item : Resource) :
    (publish_r db item).importable = true := by
  by_cases h : item.importable = true
  · simp [publish_r, h]
  · simp only [publish_r, Bool.not_eq_true] at h ⊢
    rw [h]
    rfl

theorem pubImpInv_publish_r (db : DB) (item : Resource) :
    pubImpInv (publish_r db item) :=
  fun _ => publish_r_importable db item

theorem pubImpInv_unpublish_r (item : Resource) :
    pubImpInv (unpublish_r item) := by
  intro h
  exact absurd h (by simp [unpublish_r])

theorem make_non_importable_r_published (item : Resource) :
    (make_non_importable_r item).published = false := by
  by_cases h : item.published = true
  · simp [make_non_importable_r, unpublish_r, h]
  · simp only [Bool.not_eq_true] at h
    simp [make_non_importable_r, unpublish_r, h]

theorem pubImpInv_make_non_importable_r (item : Resource) :
    pubImpInv (make_non_importable_r item) := by
  intro h
  rw [make_non_importable_r_published item] at h
  exact absurd h (by simp)

theorem applyOnItem_preserves_inv (db : DB) (itemId : Nat) (f : DB → Resource → Resource)
    (hf : ∀ (d : DB) (it : Resource), pubImpInv (f d it))
    (h : ∀ r ∈ db, pubImpInv r) :
    ∀ r ∈ applyOnItem db itemId f, pubImpInv r := by
  unfold applyOnItem
  cases hfind : db.find? (fun r => r.id == itemId) with
  | none => exact h
  | some item =>
      intro r hr
      rcases mem_updateItem hr with h1 | h1
      · exact h r h1
      · exact h1 ▸ hf db item

theorem applyOp_preserves_inv (db : DB) (itemId : Nat) (op : Op)
    (h : ∀ r ∈ db, pubImpInv r) :
    ∀ r ∈ applyOp db itemId op, pubImpInv r := by
  cases op with
  | publishOp =>
      exact applyOnItem_preserves_inv db itemId publish_r (fun d it => pubImpInv_publish_r d it) h
  | unpublishOp =>
      exact applyOnItem_preserves_inv db itemId (fun _ r => unpublish_r r)
        (fun _ it => pubImpInv_unpublish_r it) h
  | makeImportableOp =>
      exact applyOnItem_preserves_inv db itemId make_importable_r
        (fun d it => pubImpInv_make_importable_r d it) h
  | makeNonImportableOp =>
      exact applyOnItem_preserves_inv db itemId (fun _ r => make_non_importable_r r)
        (fun _ it => pubImpInv_make_non_importable_r it) h

/-- C1: starting from any table in which every row satisfies
`published ⇒ importable`, any sequence of `publish`, `unpublish`,
`make_importable`, `make_non_importable` calls on a resource leaves every
row — in particular that resource — satisfying `published ⇒ importable`:
`publish` first makes the item importable when it is not, and
`make_non_importable` first unpublishes it when it is published, before
flipping its own flag. -/
theorem runOps_preserves_pub_imp_inv (db : DB) (itemId : Nat) (ops : List Op)
    (h : ∀ r ∈ db, pubImpInv r) :
    ∀ r ∈ runOps db itemId ops, pubImpInv r := by
  induction ops generalizing db with
  | nil => exact h
  | cons op ops ih => exact ih (applyOp db itemId op) (applyOp_preserves_inv db itemId op h)

/-- Witness for C1: a concrete table and call sequence (publish, then
make_non_importable) with the hypotheses discharged. -/
theorem runOps_preserves_pub_imp_inv_witness :
    (∀ r ∈ ([⟨0, 1, "n", none, none, false, false⟩] : DB), pubImpInv r) ∧
    (∀ r ∈ runOps [⟨0, 1, "n", none, none, false, false⟩] 0
        [Op.publishOp, Op.makeNonImportableOp], pubImpInv r) :=
  ⟨by decide, runOps_preserves_pub_imp_inv [⟨0, 1, "n", none, none, false, false⟩] 0
    [Op.publishOp, Op.makeNonImportableOp] (by decide)⟩

/-- C2: `get_unique_slug` takes the resource's existing non-empty slug as
base — otherwise the `_slugify`-normalized title/name — and returns the
first candidate of `base, base-1, base-2, …` not used by any importable
resource of the same owner (and model class); in particular, when the
owner's importable resources already use "report" and "report-1" and the
base is "report", it returns "report-2". -/
theorem get_unique_slug_first_free_candidate :
    (∀ (db : DB) (item : Resource), ∃ k,
        get_unique_slug db item = slugCand (slug_base item) k ∧
        slugTaken db item.owner (slugCand (slug_base item) k) = false ∧
        ∀ j < k, slugTaken db item.owner (slugCand (slug_base item) j) = true) ∧
    (∀ (item : Resource) (s : String), item.slug = some s → s ≠ "" → slug_base item = s) ∧
    (∀ item : Resource, item.slug = none →
      slug_base item = _slugify (_default_slug_base item)) ∧
    get_unique_slug
        [⟨0, 7, "r", none, some "report", true, false⟩,
         ⟨1, 7, "r", none, some "report-1", true, false⟩]
        ⟨2, 7, "report", none, none, false, false⟩ = "report-2" := by
  refine ⟨get_unique_slug_spec, ?_, ?_, by decide⟩
  · intro item s h1 h2
    simp [slug_base, h1, h2]
  · intro item h1
    simp [slug_base, h1]

/-- Witness for C2 at concrete inputs: the existing-slug base rule applied
with its hypotheses discharged. -/
theorem get_unique_slug_first_free_candidate_witness :
    slug_base ⟨0, 1, "t", none, some "abc", false, false⟩ = "abc" :=
  get_unique_slug_first_free_candidate.2.1
    ⟨0, 1, "t", none, some "abc", false, false⟩ "abc" rfl (by decide)

/-- C7: the probe loop of `get_unique_slug` terminates on every finite
table: within `db.length + 1` probes it reaches a candidate used by no
importable resource of the owner (the suffixed candidates are pairwise
distinct, and the taken slugs are at most `db.length` many). -/
theorem get_unique_slug_terminates (db : DB) (item : Resource) :
    ∃ s, probeSlug db item.owner (slug_base item) (db.length + 1) 0 = some s ∧
      get_unique_slug db item = s := by
  obtain ⟨s, hs⟩ :=
    Option.ne_none_iff_exists'.mp (probeSlug_total db item.owner (slug_base item))
  exact ⟨s, hs, by simp [get_unique_slug, hs]⟩

/-- C3: `is_accessible` returns true for importable items (any identity);
otherwise true for the owner (or an admin); otherwise false for the
anonymous identity; otherwise membership in the users-shared-with list
decides — in exactly that order. -/
theorem is_accessible_order (grants : List ShareGrant) (item : Resource) (user : Option User) :
    (item.importable = true → is_accessible grants item user = true) ∧
    (item.importable = false → is_owner item user = true →
      is_accessible grants item user = true) ∧
    (item.importable = false → is_owner item user = false → is_anonymous user = true →
      is_accessible grants item user = false) ∧
    (∀ u, user = some u → item.importable = false → is_owner item user = false →
      (is_accessible grants item user = true ↔ u.id ∈ users_shared_with grants item)) := by
  refine ⟨?_, ?_, ?_, ?_⟩
  · intro h
    simp [is_accessible, h]
  · intro h1 h2
    simp [is_accessible, h1, h2]
  · intro h1 h2 h3
    simp [is_accessible, h1, h2, h3]
  · intro u hu h1 h2
    subst hu
    by_cases hc : (users_shared_with grants item).contains u.id = true
    · have hm : u.id ∈ users_shared_with grants item := List.elem_iff.mp hc
      simp [is_accessible, h1, h2, is_anonymous, hc, hm]
    · have hm : ¬(u.id ∈ users_shared_with grants item) := fun hm => hc (List.elem_iff.mpr hm)
      simp [is_accessible, h1, h2, is_anonymous, hc, hm]

/-- Witness for C3: the shared-with clause applied at a concrete
non-importable, non-owned, non-anonymous configuration. -/
theorem is_accessible_order_witness :
    is_accessible [⟨5, 9⟩] ⟨5, 1, "x", none, none, false, false⟩ (some ⟨9, false⟩) = true ↔
      9 ∈ users_shared_with [⟨5, 9⟩] ⟨5, 1, "x", none, none, false, false⟩ :=
  (is_accessible_order [⟨5, 9⟩] ⟨5, 1, "x", none, none, false, false⟩
    (some ⟨9, false⟩)).2.2.2 ⟨9, false⟩ rfl (by decide) (by decide)

/-- C4 counterexample: a resource whose name normalizes to the empty
string (here "!!!") ends a successful `make_importable` with
`importable = true` and the empty slug — the probe loop accepts the empty
base because no importable resource of the owner uses the empty slug. -/
theorem make_importable_empty_slug_cex :
    ∃ r ∈ make_importable [⟨0, 7, "!!!", none, none, false, false⟩] 0,
      r.importable = true ∧ r.slug = some "" := by decide

/-- C4 (amended): after a successful `make_importable` the resource has
`importable = true` and a generated slug, and that slug is non-empty
whenever the slug base — the existing non-empty slug, else the normalized
title/name — is non-empty; a resource whose title/name normalizes to the
empty string can instead end importable with slug `""`. -/
theorem make_importable_importable_and_nonempty_slug (db : DB) (item : Resource)
    (h : slug_base item ≠ "") :
    (make_importable_r db item).importable = true ∧
    ∀ s, (make_importable_r db item).slug = some s → s ≠ "" := by
  constructor
  · rfl
  · intro s hs
    have hslug : (make_importable_r db item).slug = some (get_unique_slug db item) := rfl
    rw [hslug] at hs
    obtain ⟨k, hk, _, _⟩ := get_unique_slug_spec db item
    have hsk : s = slugCand (slug_base item) k := by
      rw [← Option.some.inj hs, hk]
    rw [hsk]
    exact slugCand_ne_empty (slug_base item) h k

/-- Witness for C4 (amended) at a concrete resource with non-empty base. -/
theorem make_importable_importable_and_nonempty_slug_witness :
    (make_importable_r [] ⟨0, 1, "doc", none, none, false, false⟩).importable = true ∧
    ∀ s, (make_importable_r [] ⟨0, 1, "doc", none, none, false, false⟩).slug = some s →
      s ≠ "" :=
  make_importable_importable_and_nonempty_slug [] ⟨0, 1, "doc", none, none, false, false⟩
    (by decide)

/-- C6 counterexample: `make_importable` on a resource that already has the
non-empty slug "report" rewrites it to "report-1", because another
importable resource of the same owner uses "report" — the slug is
recomputed unconditionally, not only "when none exists". -/
theorem make_importable_rewrites_slug_cex :
    make_importable
        [⟨0, 5, "r", none, some "report", false, false⟩,
         ⟨1, 5, "r", none, some "report", true, false⟩] 0 =
      [⟨0, 5, "r", none, some "report-1", true, false⟩,
       ⟨1, 5, "r", none, some "report", true, false⟩] ∧
    ("report-1" : String) ≠ "report" := by decide

/-- C6 (amended): `make_importable` recomputes the slug from the existing
non-empty slug as base, so the value is unchanged when no importable
resource of the same owner already uses it (otherwise it is replaced by a
suffixed candidate); `make_non_importable`, `unpublish`, `publish` on an
already-importable resource, `share_with` on a resource with a non-falsy
slug, and `unshare_with` never modify any slug. -/
theorem slug_frame_conditions (db : DB) (item : Resource) (s : String) :
    (item.slug = some s → s ≠ "" → slugTaken db item.owner s = false →
      (make_importable_r db item).slug = some s) ∧
    (make_non_importable_r item).slug = item.slug ∧
    (unpublish_r item).slug = item.slug ∧
    (item.importable = true → (publish_r db item).slug = item.slug) ∧
    (∀ (st : State) (userId : Nat), st.db.find? (fun r => r.id == item.id) = some item →
      slugFalsy item.slug = false → (share_with st item.id userId).2.db = st.db) ∧
    (∀ (st : State) (itemId userId : Nat) (g : ShareGrant) (st2 : State),
      unshare_with st itemId userId = .ok (g, st2) → st2.db = st.db) := by
  refine ⟨?_, ?_, ?_, ?_, ?_, ?_⟩
  · intro hslug hne htaken
    have hbase : slug_base item = s := by
      simp [slug_base, hslug, hne]
    have hgen : get_unique_slug db item = s := by
      rw [get_unique_slug, hbase, probeSlug]
      simp [slugCand, htaken]
    simp [make_importable_r, create_unique_slug_r, hgen]
  · by_cases h : item.published = true
    · simp [make_non_importable_r, unpublish_r, h]
    · simp only [Bool.not_eq_true] at h
      simp [make_non_importable_r, unpublish_r, h]
  · rfl
  · intro h
    simp [publish_r, h]
  · intro st userId hfind hfalsy
    cases hga : get_share_assocs st.grants item.id userId with
    | cons g gs => simp [share_with, hga]
    | nil => simp [share_with, hga, hfind, hfalsy]
  · intro st itemId userId g st2 h
    unfold unshare_with at h
    cases hga : get_share_assocs st.grants itemId userId with
    | nil =>
        rw [hga] at h
        exact absurd h (by simp)
    | cons g0 gs =>
        rw [hga] at h
        simp only [Except.ok.injEq, Prod.mk.injEq] at h
        rw [← h.2]

/-- Witness for C6 (amended): a concrete resource whose slug "kept" is not
taken by any importable resource of its owner keeps it across
`make_importable`. -/
theorem slug_frame_conditions_witness :
    (make_importable_r [] ⟨0, 1, "x", none, some "kept", false, false⟩).slug = some "kept" :=
  (slug_frame_conditions [] ⟨0, 1, "x", none, some "kept", false, false⟩ "kept").1
    rfl (by decide) (by decide)

/-- C5 counterexample: (a) re-setting a resource's own current slug raises
Conflict although no *other* resource of the owner has that slug (the
uniqueness query also counts the resource itself); (b) with a different
identity passed as the `user` argument, a duplicate of a same-owner slug
is accepted — so "Conflict iff another resource of the same owner has the
slug" fails in both directions. -/
theorem set_slug_conflict_cex :
    set_slug [⟨0, 3, "x", none, some "a", false, false⟩] 0 "a" 3 =
      .error .conflict ∧
    (∀ r ∈ ([⟨0, 3, "x", none, some "a", false, false⟩] : DB),
      ¬(r.id ≠ 0 ∧ r.owner = 3 ∧ r.slug = some "a")) ∧
    set_slug [⟨0, 3, "x", none, some "a", false, false⟩,
        ⟨1, 3, "y", none, none, false, false⟩] 1 "a" 4 =
      .ok [⟨0, 3, "x", none, some "a", false, false⟩,
        ⟨1, 3, "y", none, some "a", false, false⟩] := by decide

/-- C5 (amended): `set_slug` raises the InvalidInput-class error iff the
candidate fails `is_valid_slug`; when the candidate is valid it raises the
Conflict-class error iff some resource belonging to the *identity
argument* — possibly the resource itself, and regardless of the
`importable` flag — already has that exact slug string; in every error
case the table is returned unchanged. -/
theorem set_slug_error_conditions (db : DB) (itemId : Nat) (s : String) (userId : Nat) :
    (set_slug db itemId s userId = .error .invalidSlug ↔ is_valid_slug s = false) ∧
    (is_valid_slug s = true →
      (set_slug db itemId s userId = .error .conflict ↔
        ∃ r ∈ db, r.owner = userId ∧ r.slug = some s)) := by
  have hex_iff : _slug_exists db userId s = true ↔
      ∃ r ∈ db, r.owner = userId ∧ r.slug = some s := by
    simp [_slug_exists, List.any_eq_true, Bool.and_eq_true, beq_iff_eq]
  have e1 : is_valid_slug s = false → set_slug db itemId s userId = .error .invalidSlug := by
    intro h
    simp [set_slug, h]
  have e2 : is_valid_slug s = true → _slug_exists db userId s = true →
      set_slug db itemId s userId = .error .conflict := by
    intro hv hc
    simp [set_slug, hv, hc]
  have e3 : is_valid_slug s = true → _slug_exists db userId s = false →
      ∃ db2, set_slug db itemId s userId = .ok db2 := by
    intro hv hc
    rcases hfind : db.find? (fun r => r.id == itemId) with _ | item
    · exact ⟨db, by simp [set_slug, hv, hc, hfind]⟩
    · exact ⟨updateItem db { item with slug := some s }, by simp [set_slug, hv, hc, hfind]⟩
  constructor
  · constructor
    · intro h
      by_contra hvne
      have hv : is_valid_slug s = true := by
        simpa using hvne
      by_cases hc : _slug_exists db userId s = true
      · rw [e2 hv hc] at h
        exact absurd h (by simp)
      · obtain ⟨db2, hdb2⟩ := e3 hv (by simpa using hc)
        rw [hdb2] at h
        exact absurd h (by simp)
    · exact e1
  · intro hv
    constructor
    · intro h
      by_contra hne
      have hc : _slug_exists db userId s = false := by
        rw [← Bool.not_eq_true]
        intro hc
        exact hne (hex_iff.mp hc)
      obtain ⟨db2, hdb2⟩ := e3 hv hc
      rw [hdb2] at h
      exact absurd h (by simp)
    · intro hexists
      exact e2 hv (hex_iff.mpr hexists)

/-- Witness for C5 (amended): the Conflict clause applied at a concrete
table, with the validity hypothesis discharged. -/
theorem set_slug_error_conditions_witness :
    set_slug [⟨0, 3, "x", none, some "a", false, false⟩] 0 "a" 3 = .error .conflict ↔
      ∃ r ∈ ([⟨0, 3, "x", none, some "a", false, false⟩] : DB),
        r.owner = 3 ∧ r.slug = some "a" :=
  (set_slug_error_conditions [⟨0, 3, "x", none, some "a", false, false⟩] 0 "a" 3).2
    (by decide)

theorem find?_filter_head {α : Type} (p : α → Bool) (l : List α) :
    l.find? p = (l.filter p).head? := by
  induction l with
  | nil => rfl
  | cons a l ih =>
      by_cases h : p a
      · rw [List.find?_cons_of_pos _ h, List.filter_cons_of_pos h]
        rfl
      · rw [List.find?_cons_of_neg _ h, List.filter_cons_of_neg h]
        exact ih

/-- C8: `unshare_with` on a single identity fails (the NotFound-class
failure; concretely the source raises `IndexError` indexing `[0]` into the
empty query result) when no share association exists for that identity on
the item; when one or more exist, it removes and returns the first
association found. -/
theorem unshare_with_spec (st : State) (itemId userId : Nat) :
    ((∀ g ∈ st.grants, ¬(g.itemId = itemId ∧ g.userId = userId)) →
      unshare_with st itemId userId = .error .notFound) ∧
    (∀ g, st.grants.find? (fun g => g.itemId == itemId && g.userId == userId) = some g →
      unshare_with st itemId userId = .ok (g, { st with grants := st.grants.erase g })) := by
  constructor
  · intro h
    have hfil : get_share_assocs st.grants itemId userId = [] := by
      rw [get_share_assocs, List.filter_eq_nil_iff]
      intro g hg
      simp only [Bool.and_eq_true, beq_iff_eq, not_and]
      intro h1 h2
      exact h g hg ⟨h1, h2⟩
    unfold unshare_with
    rw [hfil]
  · intro g hg
    have hfil := find?_filter_head
      (fun g => g.itemId == itemId && g.userId == userId) st.grants
    rw [hg] at hfil
    unfold unshare_with
    cases hga : get_share_assocs st.grants itemId userId with
    | nil =>
        have hflt : st.grants.filter (fun g => g.itemId == itemId && g.userId == userId) = [] :=
          hga
        rw [hflt] at hfil
        exact absurd hfil (by simp)
    | cons g0 gs =>
        have hflt : st.grants.filter (fun g => g.itemId == itemId && g.userId == userId) =
            g0 :: gs := hga
        rw [hflt] at hfil
        have hg0 : g = g0 := by
          simpa using hfil
        subst hg0
        rfl

/-- Witness for C8: both clauses applied at concrete association tables. -/
theorem unshare_with_spec_witness :
    unshare_with ⟨[], [⟨0, 9⟩]⟩ 0 9 = .ok (⟨0, 9⟩, ⟨[], []⟩) ∧
    unshare_with ⟨[], []⟩ 0 9 = .error .notFound :=
  ⟨(unshare_with_spec ⟨[], [⟨0, 9⟩]⟩ 0 9).2 ⟨0, 9⟩ (by decide),
   (unshare_with_spec ⟨[], []⟩ 0 9).1 (by decide)⟩

/-- C9 counterexample: `is_valid_slug "a\n"` is truthy although `"a\n"`
contains a character outside `[a-z0-9-]` and is not a full match of
`^[a-z0-9-]+$` — Python's `$` also matches just before one trailing
newline. -/
theorem is_valid_slug_trailing_newline_cex :
    is_valid_slug "a\n" = true ∧ fullMatchSlugClass "a\n" = false := by decide

/-- C9 (amended): `is_valid_slug s` is truthy iff `s`, after removing a
single trailing newline when present, is non-empty and consists only of
characters in `[a-z0-9-]`; in particular "my-item-1" is accepted while
"My Item" and the empty string are rejected. -/
theorem is_valid_slug_characterization :
    (∀ s : String, is_valid_slug s = true ↔ validSlugSpec s) ∧
    is_valid_slug "my-item-1" = true ∧
    is_valid_slug "My Item" = false ∧
    is_valid_slug "" = false := by
  refine ⟨?_, by decide, by decide, by decide⟩
  intro s
  rcases List.eq_nil_or_concat s.data with h | ⟨t, c, hcat⟩
  · constructor
    · intro hv
      exfalso
      rw [is_valid_slug] at hv
      simp [h] at hv
    · intro hspec
      exfalso
      rcases hspec with ⟨hne, _⟩ | ⟨t2, ht2, _, _⟩
      · exact hne h
      · rw [h] at ht2
        exact absurd ht2.symm (by simp)
  · have h : s.data = t ++ [c] := by simpa using hcat
    by_cases hc : c = '\n'
    · subst hc
      have e : is_valid_slug s = (!t.isEmpty && t.all (fun c => c.isLower || c.isDigit || c == '-')) := by
        rw [is_valid_slug]
        simp [h, List.getLast?_concat, List.dropLast_concat]
      rw [e]
      constructor
      · intro hv
        obtain ⟨hne, hall⟩ := Bool.and_eq_true_iff.mp hv
        right
        refine ⟨t, h, ?_, ?_⟩
        · intro ht
          rw [ht] at hne
          simp at hne
        · exact List.all_eq_true.mp hall
      · intro hspec
        rcases hspec with ⟨_, hall⟩ | ⟨t2, ht2, hne2, hall2⟩
        · exfalso
          have := hall '\n' (by rw [h]; exact List.mem_append_right _ (by simp))
          simp at this
        · have ht2t : t2 = t :=
            List.append_cancel_right (ht2.symm.trans h)
          subst ht2t
          refine Bool.and_eq_true_iff.mpr ⟨?_, List.all_eq_true.mpr hall2⟩
          simpa using hne2
    · have e : is_valid_slug s =
          (!(t ++ [c]).isEmpty && (t ++ [c]).all (fun c => c.isLower || c.isDigit || c == '-')) := by
        rw [is_valid_slug]
        simp [h, List.getLast?_concat, hc]
      rw [e]
      constructor
      · intro hv
        obtain ⟨hne, hall⟩ := Bool.and_eq_true_iff.mp hv
        left
        refine ⟨by rw [h]; simp, ?_⟩
        intro d hd
        rw [h] at hd
        exact List.all_eq_true.mp hall d hd
      · intro hspec
        rcases hspec with ⟨_, hall⟩ | ⟨t2, ht2, _, _⟩
        · refine Bool.and_eq_true_iff.mpr ⟨by simp, List.all_eq_true.mpr ?_⟩
          intro d hd
          exact hall d (by rw [h]; exact hd)
        · exfalso
          have hlast : some c = some '\n' := by
            rw [← List.getLast?_concat t, ← h, ht2, List.getLast?_concat]
          exact hc (Option.some.inj hlast)

/-- Witness for C9 (amended): the characterization applied at "a-b". -/
theorem is_valid_slug_characterization_witness :
    validSlugSpec "a-b" :=
  (is_valid_slug_characterization.1 "a-b").mp (by decide)

/-- C10: `set_slug` performs no ownership check and scopes its uniqueness
check to the identity argument: with resource 0 owned by identity 3
already carrying slug "s", setting slug "s" on resource 1 (also owned by
3) while passing the different identity 4 succeeds, leaving two resources
of owner 3 with the identical slug string. -/
theorem set_slug_scoped_to_identity_argument :
    set_slug [⟨0, 3, "x", none, some "s", false, false⟩,
        ⟨1, 3, "y", none, none, false, false⟩] 1 "s" 4 =
      .ok [⟨0, 3, "x", none, some "s", false, false⟩,
        ⟨1, 3, "y", none, some "s", false, false⟩] ∧
    (4 : Nat) ≠ 3 ∧
    (∀ r ∈ ([⟨0, 3, "x", none, some "s", false, false⟩,
        ⟨1, 3, "y", none, some "s", false, false⟩] : DB),
      r.owner = 3 ∧ r.slug = some "s") := by decide

/-- Witness for C10: the duplicate-slug conclusion read off at the second
row of the resulting table. -/
theorem set_slug_scoped_to_identity_argument_witness :
    (⟨1, 3, "y", none, some "s", false, false⟩ : Resource).owner = 3 ∧
    (⟨1, 3, "y", none, some "s", false, false⟩ : Resource).slug = some "s" :=
  set_slug_scoped_to_identity_argument.2.2
    ⟨1, 3, "y", none, some "s", false, false⟩ (by decide)
